import Mathlib

/-!
Shallow embedding of `src/endec.rs` of the `raster` crate: the canonical
`Image` container and the GIF/PNG decode/encode adapters, with the
pixel-format normalization loops of `decode_png` modelled byte for byte.

Machine integers are modelled as `Nat`/`Int` with explicit wrap-arounds:
`as i32` on a `u32` is `toI32`, `as u16` on an `i32` is `toU16`,
`as u32` on an `i32` is `toU32`, and the `u32` multiplication
`info.width * info.height` wraps modulo `2^32` (release semantics).
Rust indexing that can panic (`bytes[i]`, `&bytes[idx..idx+3]`) is
modelled with `Option`; a panic surfaces as `DecodeResult.panic`, so a
panicking run never returns an `Image`.
-/

namespace Raster

/-- The canonical image container: `width`, `height` are Rust `i32`
(modelled as `Int`), `bytes` the flat RGBA buffer of `u8` values. -/
structure Image where
  width : Int
  height : Int
  bytes : List Nat
deriving Repr, DecidableEq

/-- The `ImageFormat` tag carried by decode errors. -/
inductive ImageFormat where
  | Gif
  | Png
deriving Repr, DecidableEq

/-- `RasterError` variants reachable from the endec module. `Io` stands
for any error propagated with `?` from the external codec or the OS. -/
inductive RasterError where
  | Decode (format : ImageFormat) (msg : String)
  | Io
deriving Repr, DecidableEq

/-- Outcome of a decode call: a normal return (`ok`/`err`) or a Rust
panic from out-of-bounds slice indexing. -/
inductive DecodeResult where
  | ok (img : Image)
  | err (e : RasterError)
  | panic
deriving Repr, DecidableEq

/-- `png::ColorType` as reported by the external PNG decoder. -/
inductive ColorType where
  | Rgb
  | Grayscale
  | GrayscaleAlpha
  | Indexed
  | Rgba
deriving Repr, DecidableEq

/-- What `reader.info()` of the external PNG decoder reports: `u32`
dimensions, the color type, and the optional palette (flat RGB bytes). -/
structure PngInfo where
  width : Nat
  height : Nat
  colorType : ColorType
  palette : Option (List Nat)
deriving Repr

/-- Rust `u32 as i32`: two's-complement reinterpretation. -/
def toI32 (n : Nat) : Int :=
  if n % 2 ^ 32 < 2 ^ 31 then ((n % 2 ^ 32 : Nat) : Int)
  else ((n % 2 ^ 32 : Nat) : Int) - 2 ^ 32

/-- Rust `i32 as u16`: keep the low 16 bits. -/
def toU16 (i : Int) : Nat := (i % 65536).toNat

/-- Rust `i32 as u32`: two's-complement reinterpretation. -/
def toU32 (i : Int) : Nat := (i % 2 ^ 32).toNat

/-- One iteration of the `Rgb` branch of `decode_png`:
`let idx = i * 3;` then `&bytes[idx..idx + 3]` plus alpha 255.
`none` models the panic when the slice is out of bounds. -/
def rgbPixel (bytes : List Nat) (i : Nat) : Option (List Nat) := do
  let r ← bytes[i * 3]?
  let g ← bytes[i * 3 + 1]?
  let b ← bytes[i * 3 + 2]?
  pure [r, g, b, 255]

/-- One iteration of the `Grayscale` branch: `let gray = bytes[i];`
replicated into R, G, B plus alpha 255. -/
def grayPixel (bytes : List Nat) (i : Nat) : Option (List Nat) := do
  let gray ← bytes[i]?
  pure [gray, gray, gray, 255]

/-- One iteration of the `GrayscaleAlpha` branch: `let idx = i * 2;`
`gray = bytes[idx]`, `alpha = bytes[idx + 1]`. -/
def grayAlphaPixel (bytes : List Nat) (i : Nat) : Option (List Nat) := do
  let gray ← bytes[i * 2]?
  let alpha ← bytes[i * 2 + 1]?
  pure [gray, gray, gray, alpha]

/-- One iteration of the `Indexed` branch:
`let idx = bytes[i] as usize * 3; if idx + 2 < palette.len() { .. } else
{ [0, 0, 0, 255] }`. The three palette reads are guarded by the bound
check, exactly as in the source. -/
def indexedPixel (palette bytes : List Nat) (i : Nat) : Option (List Nat) := do
  let b ← bytes[i]?
  let idx := b * 3
  if idx + 2 < palette.length then do
    let pr ← palette[idx]?
    let pg ← palette[idx + 1]?
    let pb ← palette[idx + 2]?
    pure [pr, pg, pb, 255]
  else
    pure [0, 0, 0, 255]

/-- The normalization loop `for i in 0..n { push pixel i }`, unrolled
from the tail: `buildPixels f n` is the concatenation of `f 0 .. f (n-1)`
in order, or `none` as soon as one iteration panics. -/
def buildPixels (f : Nat → Option (List Nat)) : Nat → Option (List Nat)
  | 0 => some []
  | n + 1 =>
      match buildPixels f n, f n with
      | some rest, some px => some (rest ++ px)
      | _, _ => none

/-- `decode_png`, from the point where the external decoder has yielded
`info` and the raw buffer `bytes` (already sized to
`reader.output_buffer_size()` and filled by `next_frame`). The pixel
count `(info.width * info.height) as usize` is a `u32` product, hence
the wrap modulo `2^32`. -/
def decode_png (info : PngInfo) (bytes : List Nat) : DecodeResult :=
  let n : Nat := info.width * info.height % 2 ^ 32
  let mkImage (b : List Nat) : DecodeResult :=
    .ok { width := toI32 info.width, height := toI32 info.height, bytes := b }
  match info.colorType with
  | .Rgb =>
      match buildPixels (rgbPixel bytes) n with
      | some b => mkImage b
      | none => .panic
  | .Grayscale =>
      match buildPixels (grayPixel bytes) n with
      | some b => mkImage b
      | none => .panic
  | .GrayscaleAlpha =>
      match buildPixels (grayAlphaPixel bytes) n with
      | some b => mkImage b
      | none => .panic
  | .Indexed =>
      match info.palette with
      | none => .err (.Decode .Png "Missing palette for indexed image")
      | some palette =>
          match buildPixels (indexedPixel palette bytes) n with
          | some b => mkImage b
          | none => .panic
  | .Rgba => mkImage bytes

/-- What `decode_gif` observes from the external GIF reader after
`read_info` succeeded: whether `next_frame_info()` yields a frame,
`reader.buffer_size()`, the bytes `read_into_buffer` deposits, and the
`u16` dimensions `reader.width()` / `reader.height()`. -/
structure GifStream where
  hasFrame : Bool
  bufferSize : Nat
  frameData : List Nat
  width : Nat
  height : Nat
deriving Repr

/-- `decode_gif` after `read_info` succeeded: allocate
`vec![0; buffer_size]`, fill it in place from the stream (the length
stays `buffer_size`), and copy the `u16` dimensions through `as i32`;
with no frame, fail with the GIF-tagged decode error. -/
def decode_gif (s : GifStream) : DecodeResult :=
  if s.hasFrame then
    .ok { width := toI32 (s.width % 65536)
          height := toI32 (s.height % 65536)
          bytes := (s.frameData ++ List.replicate s.bufferSize 0).take s.bufferSize }
  else
    .err (.Decode .Gif "Error getting frame info")

/-- The single GIF frame `encode_gif` builds with
`gif::Frame::from_rgba(image.width as u16, image.height as u16, ..)`. -/
structure GifFrame where
  width : Nat
  height : Nat
  data : List Nat
deriving Repr

/-- The frame-construction step of `encode_gif`: both dimensions pass
through `as u16`, the RGBA bytes are handed over unchanged. -/
def encode_gif_frame (img : Image) : GifFrame :=
  { width := toU16 img.width, height := toU16 img.height, data := img.bytes }

/-- The PNG file `encode_png` writes: a header with `image.width as u32`
`image.height as u32`, color type RGBA, bit depth 8, and `image.bytes`
verbatim as the image data. -/
structure PngFile where
  width : Nat
  height : Nat
  colorType : ColorType
  data : List Nat
deriving Repr

/-- The observable content of the file produced by `encode_png`. -/
def encode_png_file (img : Image) : PngFile :=
  { width := toU32 img.width, height := toU32 img.height
    colorType := .Rgba, data := img.bytes }

/-- Reading back a file written by `encode_png`: the external decoder
reports the header dimensions and color type (RGBA has no palette) and
yields the stored data as the raw buffer. -/
def png_info_of_file (f : PngFile) : PngInfo :=
  { width := f.width, height := f.height, colorType := f.colorType, palette := none }

/-- PNG round trip: encode an image, decode the resulting file. -/
def png_roundtrip (img : Image) : DecodeResult :=
  decode_png (png_info_of_file (encode_png_file img)) (encode_png_file img).data

/-- The 4-byte slice of an RGBA buffer holding pixel `i`. -/
def pixelAt (b : List Nat) (i : Nat) : List Nat :=
  (b.drop (4 * i)).take 4

/-! ### Helper lemmas about the normalization loop and the casts -/

/-- `u32 as i32` is the identity below `2^31`. -/
theorem toI32_of_lt {n : Nat} (h : n < 2 ^ 31) : toI32 n = (n : Int) := by
  unfold toI32
  rw [Nat.mod_eq_of_lt (by omega)]
  rw [if_pos h]

/-- Every pixel the `Rgb` branch emits has 4 bytes. -/
theorem rgbPixel_length (bytes : List Nat) :
    ∀ i px, rgbPixel bytes i = some px → px.length = 4 := by
  intro i px h
  simp only [rgbPixel, Option.bind_eq_bind, Option.bind_eq_some, Option.pure_def,
    Option.some.injEq] at h
  obtain ⟨r, _, g, _, b, _, hpx⟩ := h
  subst hpx
  rfl

/-- Every pixel the `Grayscale` branch emits has 4 bytes. -/
theorem grayPixel_length (bytes : List Nat) :
    ∀ i px, grayPixel bytes i = some px → px.length = 4 := by
  intro i px h
  simp only [grayPixel, Option.bind_eq_bind, Option.bind_eq_some, Option.pure_def,
    Option.some.injEq] at h
  obtain ⟨g, _, hpx⟩ := h
  subst hpx
  rfl

/-- Every pixel the `GrayscaleAlpha` branch emits has 4 bytes. -/
theorem grayAlphaPixel_length (bytes : List Nat) :
    ∀ i px, grayAlphaPixel bytes i = some px → px.length = 4 := by
  intro i px h
  simp only [grayAlphaPixel, Option.bind_eq_bind, Option.bind_eq_some, Option.pure_def,
    Option.some.injEq] at h
  obtain ⟨g, _, a, _, hpx⟩ := h
  subst hpx
  rfl

/-- Every pixel the `Indexed` branch emits has 4 bytes. -/
theorem indexedPixel_length (palette bytes : List Nat) :
    ∀ i px, indexedPixel palette bytes i = some px → px.length = 4 := by
  intro i px h
  simp only [indexedPixel, Option.bind_eq_bind, Option.bind_eq_some] at h
  obtain ⟨b, _, h⟩ := h
  by_cases hb : b * 3 + 2 < palette.length
  · rw [if_pos hb] at h
    simp only [Option.bind_eq_some, Option.pure_def, Option.some.injEq] at h
    obtain ⟨r, _, g, _, bl, _, hpx⟩ := h
    subst hpx
    rfl
  · rw [if_neg hb] at h
    simp only [Option.pure_def, Option.some.injEq] at h
    subst h
    rfl

/-- A completed loop over `n` pixels of 4 bytes each yields `4 * n` bytes. -/
theorem buildPixels_length (f : Nat → Option (List Nat))
    (hf : ∀ i px, f i = some px → px.length = 4) :
    ∀ n b, buildPixels f n = some b → b.length = 4 * n := by
  intro n
  induction n with
  | zero =>
      intro b hb
      have hb2 : ([] : List Nat) = b := Option.some.inj hb
      subst hb2
      rfl
  | succ n ih =>
      intro b hb
      cases hr : buildPixels f n with
      | none => simp [buildPixels, hr] at hb
      | some rest =>
          cases hp : f n with
          | none => simp [buildPixels, hr, hp] at hb
          | some px =>
              simp only [buildPixels, hr, hp, Option.some.injEq] at hb
              subst hb
              have h1 := ih rest hr
              have h2 := hf n px hp
              simp only [List.length_append, h1, h2]
              omega

/-- If every iteration below `n` succeeds, the loop completes. -/
theorem buildPixels_isSome (f : Nat → Option (List Nat)) :
    ∀ n, (∀ i, i < n → (f i).isSome) → (buildPixels f n).isSome := by
  intro n
  induction n with
  | zero => intro; rfl
  | succ n ih =>
      intro h
      have h1 := ih fun i hi => h i (by omega)
      have h2 := h n (by omega)
      cases hr : buildPixels f n with
      | none => rw [hr] at h1; cases h1
      | some rest =>
          cases hp : f n with
          | none => rw [hp] at h2; cases h2
          | some px => simp [buildPixels, hr, hp]

/-- Pixel `i` of a completed loop is exactly what iteration `i` emitted. -/
theorem buildPixels_pixelAt (f : Nat → Option (List Nat))
    (hf : ∀ i px, f i = some px → px.length = 4) :
    ∀ n b, buildPixels f n = some b →
      ∀ i, i < n → ∀ px, f i = some px → pixelAt b i = px := by
  intro n
  induction n with
  | zero => intro b _ i hi; exact absurd hi (Nat.not_lt_zero i)
  | succ n ih =>
      intro b hb i hi px hpx
      cases hr : buildPixels f n with
      | none => simp [buildPixels, hr] at hb
      | some rest =>
          cases hp : f n with
          | none => simp [buildPixels, hr, hp] at hb
          | some pxn =>
              simp only [buildPixels, hr, hp, Option.some.injEq] at hb
              subst hb
              have hrest : rest.length = 4 * n := buildPixels_length f hf n rest hr
              by_cases hin : i < n
              · have hih := ih rest hr i hin px hpx
                unfold pixelAt at hih ⊢
                rw [List.drop_append_of_le_length (by omega)]
                rw [List.take_append_of_le_length (by rw [List.length_drop]; omega)]
                exact hih
              · have hieq : i = n := by omega
                subst hieq
                have hpx2 : px = pxn := Option.some.inj (hpx ▸ hp)
                subst hpx2
                unfold pixelAt
                rw [show 4 * i = rest.length by omega, List.drop_left]
                exact List.take_of_length_le (by rw [hf i px hp])

/-- Value of one `Rgb` iteration given its three source bytes. -/
theorem rgbPixel_some (bytes : List Nat) (i r g b : Nat)
    (hr : bytes[i * 3]? = some r) (hg : bytes[i * 3 + 1]? = some g)
    (hb : bytes[i * 3 + 2]? = some b) :
    rgbPixel bytes i = some [r, g, b, 255] := by
  simp [rgbPixel, hr, hg, hb]

/-- The `Rgb` iteration succeeds when its slice is in bounds. -/
theorem rgbPixel_isSome (bytes : List Nat) (i : Nat) (h : i * 3 + 2 < bytes.length) :
    (rgbPixel bytes i).isSome := by
  rw [rgbPixel_some bytes i _ _ _ (List.getElem?_eq_getElem (by omega))
    (List.getElem?_eq_getElem (by omega)) (List.getElem?_eq_getElem h)]
  rfl

/-- Value of one `Grayscale` iteration given its source byte. -/
theorem grayPixel_some (bytes : List Nat) (i g : Nat) (hg : bytes[i]? = some g) :
    grayPixel bytes i = some [g, g, g, 255] := by
  simp [grayPixel, hg]

/-- The `Grayscale` iteration succeeds when its index is in bounds. -/
theorem grayPixel_isSome (bytes : List Nat) (i : Nat) (h : i < bytes.length) :
    (grayPixel bytes i).isSome := by
  rw [grayPixel_some bytes i _ (List.getElem?_eq_getElem h)]
  rfl

/-- Value of one `GrayscaleAlpha` iteration given its two source bytes. -/
theorem grayAlphaPixel_some (bytes : List Nat) (i g a : Nat)
    (hg : bytes[i * 2]? = some g) (ha : bytes[i * 2 + 1]? = some a) :
    grayAlphaPixel bytes i = some [g, g, g, a] := by
  simp [grayAlphaPixel, hg, ha]

/-- The `GrayscaleAlpha` iteration succeeds when its pair is in bounds. -/
theorem grayAlphaPixel_isSome (bytes : List Nat) (i : Nat)
    (h : i * 2 + 1 < bytes.length) :
    (grayAlphaPixel bytes i).isSome := by
  rw [grayAlphaPixel_some bytes i _ _ (List.getElem?_eq_getElem (by omega))
    (List.getElem?_eq_getElem h)]
  rfl

/-- Value of one `Indexed` iteration whose palette offset is in bounds. -/
theorem indexedPixel_some_in (palette bytes : List Nat) (i b r g bl : Nat)
    (hb : bytes[i]? = some b) (hlt : b * 3 + 2 < palette.length)
    (hr : palette[b * 3]? = some r) (hg : palette[b * 3 + 1]? = some g)
    (hbl : palette[b * 3 + 2]? = some bl) :
    indexedPixel palette bytes i = some [r, g, bl, 255] := by
  simp [indexedPixel, hb, hlt, hr, hg, hbl]

/-- Value of one `Indexed` iteration whose palette offset is out of
bounds: the opaque-black substitute. -/
theorem indexedPixel_some_out (palette bytes : List Nat) (i b : Nat)
    (hb : bytes[i]? = some b) (hge : ¬ b * 3 + 2 < palette.length) :
    indexedPixel palette bytes i = some [0, 0, 0, 255] := by
  simp [indexedPixel, hb, hge]

/-- The `Indexed` iteration succeeds whenever the index byte itself is in
bounds: an out-of-range palette offset is substituted, never a failure. -/
theorem indexedPixel_isSome (palette bytes : List Nat) (i : Nat)
    (h : i < bytes.length) :
    (indexedPixel palette bytes i).isSome := by
  have hb : bytes[i]? = some bytes[i] := List.getElem?_eq_getElem h
  by_cases hlt : bytes[i] * 3 + 2 < palette.length
  · rw [indexedPixel_some_in palette bytes i _ _ _ _ hb hlt
      (List.getElem?_eq_getElem (by omega)) (List.getElem?_eq_getElem (by omega))
      (List.getElem?_eq_getElem hlt)]
    rfl
  · rw [indexedPixel_some_out palette bytes i _ hb hlt]
    rfl

/-- A successful `decode_png` stores the `as i32` casts of the reported
dimensions, and its buffer is either the raw RGBA pass-through or a
freshly built buffer of `4 * pixelCount` bytes. -/
theorem decode_png_ok (info : PngInfo) (raw : List Nat) (img : Image)
    (h : decode_png info raw = .ok img) :
    img.width = toI32 info.width ∧ img.height = toI32 info.height ∧
      ((info.colorType = .Rgba ∧ img.bytes = raw) ∨
        img.bytes.length = 4 * (info.width * info.height % 2 ^ 32)) := by
  obtain ⟨w, ht, ct, pal⟩ := info
  cases ct with
  | Rgb =>
      simp only [decode_png] at h
      cases hb : buildPixels (rgbPixel raw) (w * ht % 2 ^ 32) with
      | none => rw [hb] at h; cases h
      | some b =>
          rw [hb] at h
          injection h with h
          subst h
          exact ⟨rfl, rfl, Or.inr (buildPixels_length _ (rgbPixel_length raw) _ b hb)⟩
  | Grayscale =>
      simp only [decode_png] at h
      cases hb : buildPixels (grayPixel raw) (w * ht % 2 ^ 32) with
      | none => rw [hb] at h; cases h
      | some b =>
          rw [hb] at h
          injection h with h
          subst h
          exact ⟨rfl, rfl, Or.inr (buildPixels_length _ (grayPixel_length raw) _ b hb)⟩
  | GrayscaleAlpha =>
      simp only [decode_png] at h
      cases hb : buildPixels (grayAlphaPixel raw) (w * ht % 2 ^ 32) with
      | none => rw [hb] at h; cases h
      | some b =>
          rw [hb] at h
          injection h with h
          subst h
          exact ⟨rfl, rfl, Or.inr (buildPixels_length _ (grayAlphaPixel_length raw) _ b hb)⟩
  | Indexed =>
      cases pal with
      | none =>
          simp only [decode_png] at h
          cases h
      | some palette =>
          simp only [decode_png] at h
          cases hb : buildPixels (indexedPixel palette raw) (w * ht % 2 ^ 32) with
          | none => rw [hb] at h; cases h
          | some b =>
              rw [hb] at h
              injection h with h
              subst h
              exact ⟨rfl, rfl,
                Or.inr (buildPixels_length _ (indexedPixel_length palette raw) _ b hb)⟩
  | Rgba =>
      simp only [decode_png] at h
      injection h with h
      subst h
      exact ⟨rfl, rfl, Or.inl ⟨rfl, rfl⟩⟩

/-- A successful `decode_gif` stores the in-range `u16` dimensions and a
buffer of exactly `bufferSize` bytes. -/
theorem decode_gif_ok (s : GifStream) (img : Image)
    (h : decode_gif s = .ok img) :
    img.width = ((s.width % 65536 : Nat) : Int) ∧
      img.height = ((s.height % 65536 : Nat) : Int) ∧
      img.bytes.length = s.bufferSize := by
  unfold decode_gif at h
  by_cases hf : s.hasFrame
  · rw [if_pos hf] at h
    injection h with h
    subst h
    refine ⟨toI32_of_lt (by omega), toI32_of_lt (by omega), ?_⟩
    simp only [List.length_take, List.length_append, List.length_replicate]
    omega
  · rw [if_neg hf] at h
    cases h

/-! ### Claim theorems -/

/-- C1: every `Image` returned by a successful `decode_png` or
`decode_gif` has `bytes.length = width * height * 4` for the dimensions
stored in that `Image`. The hypotheses record the external decoder's
buffer contract (an RGBA raw buffer holds `width*height*4` bytes; the
GIF reader's `buffer_size` is its RGBA frame size) and the spec's own
no-overflow precondition on the dimensions. -/
theorem C1_decode_buffer_invariant :
    (∀ (info : PngInfo) (raw : List Nat) (img : Image),
      info.width < 2 ^ 31 → info.height < 2 ^ 31 →
      info.width * info.height < 2 ^ 32 →
      (info.colorType = .Rgba → raw.length = info.width * info.height * 4) →
      decode_png info raw = .ok img →
      (img.bytes.length : Int) = img.width * img.height * 4) ∧
    (∀ (s : GifStream) (img : Image),
      s.bufferSize = s.width % 65536 * (s.height % 65536) * 4 →
      decode_gif s = .ok img →
      (img.bytes.length : Int) = img.width * img.height * 4) := by
  constructor
  · intro info raw img hw hh hwh hrgba hdec
    obtain ⟨h1, h2, h3⟩ := decode_png_ok info raw img hdec
    rw [h1, h2, toI32_of_lt hw, toI32_of_lt hh]
    cases h3 with
    | inl hc =>
        rw [hc.2, hrgba hc.1]
        push_cast
        ring
    | inr hl =>
        rw [hl, Nat.mod_eq_of_lt hwh]
        push_cast
        ring
  · intro s img hbuf hdec
    obtain ⟨h1, h2, h3⟩ := decode_gif_ok s img hdec
    rw [h1, h2, h3, hbuf]
    push_cast
    ring

/-- Witness for C1 at a concrete 1×1 RGB decode. -/
theorem C1_witness :
    ((⟨1, 1, [10, 20, 30, 255]⟩ : Image).bytes.length : Int) =
      (⟨1, 1, [10, 20, 30, 255]⟩ : Image).width *
        (⟨1, 1, [10, 20, 30, 255]⟩ : Image).height * 4 :=
  C1_decode_buffer_invariant.1 ⟨1, 1, .Rgb, none⟩ [10, 20, 30]
    ⟨1, 1, [10, 20, 30, 255]⟩ (by norm_num) (by norm_num) (by norm_num)
    (by decide) (by decide)

/-- C2: in the `Indexed` branch, a pixel whose index byte `b` gives an
in-bounds palette offset (`b*3 + 2 < palette.length`) is normalized to
the three palette bytes at `b*3`, `b*3+1`, `b*3+2` followed by 255. -/
theorem C2_indexed_in_bounds (info : PngInfo) (raw palette : List Nat)
    (img : Image) (i b r g bl : Nat)
    (hct : info.colorType = .Indexed) (hpal : info.palette = some palette)
    (hdec : decode_png info raw = .ok img)
    (hi : i < info.width * info.height % 2 ^ 32)
    (hb : raw[i]? = some b) (hin : b * 3 + 2 < palette.length)
    (hr : palette[b * 3]? = some r) (hg : palette[b * 3 + 1]? = some g)
    (hbl : palette[b * 3 + 2]? = some bl) :
    pixelAt img.bytes i = [r, g, bl, 255] := by
  simp only [decode_png, hct, hpal] at hdec
  cases hbp : buildPixels (indexedPixel palette raw) (info.width * info.height % 2 ^ 32) with
  | none => rw [hbp] at hdec; cases hdec
  | some bts =>
      rw [hbp] at hdec
      injection hdec with hdec
      subst hdec
      exact buildPixels_pixelAt _ (indexedPixel_length palette raw) _ _ hbp i hi _
        (indexedPixel_some_in palette raw i b r g bl hb hin hr hg hbl)

/-- Witness for C2: palette `[[1,2,3],[4,5,6]]`, index byte 1. -/
theorem C2_witness :
    pixelAt (⟨1, 1, [4, 5, 6, 255]⟩ : Image).bytes 0 = [4, 5, 6, 255] :=
  C2_indexed_in_bounds ⟨1, 1, .Indexed, some [1, 2, 3, 4, 5, 6]⟩ [1]
    [1, 2, 3, 4, 5, 6] ⟨1, 1, [4, 5, 6, 255]⟩ 0 1 4 5 6 rfl rfl (by decide)
    (by decide) (by decide) (by decide) (by decide) (by decide) (by decide)

/-- C3: in the `Indexed` branch, an index byte whose palette offset plus
2 is out of bounds yields the substitute pixel `[0,0,0,255]`, and the
decode as a whole still succeeds (given every index byte is readable). -/
theorem C3_indexed_out_of_bounds (info : PngInfo) (raw palette : List Nat)
    (hct : info.colorType = .Indexed) (hpal : info.palette = some palette)
    (hlen : info.width * info.height % 2 ^ 32 ≤ raw.length) :
    ∃ img, decode_png info raw = .ok img ∧
      ∀ i b, i < info.width * info.height % 2 ^ 32 → raw[i]? = some b →
        ¬ b * 3 + 2 < palette.length → pixelAt img.bytes i = [0, 0, 0, 255] := by
  have hsome :
      (buildPixels (indexedPixel palette raw) (info.width * info.height % 2 ^ 32)).isSome :=
    buildPixels_isSome _ _ fun i hi => indexedPixel_isSome palette raw i (by omega)
  obtain ⟨bts, hbp⟩ := Option.isSome_iff_exists.mp hsome
  refine ⟨⟨toI32 info.width, toI32 info.height, bts⟩, ?_, ?_⟩
  · simp only [decode_png, hct, hpal, hbp]
  · intro i b hi hb hout
    exact buildPixels_pixelAt _ (indexedPixel_length palette raw) _ _ hbp i hi _
      (indexedPixel_some_out palette raw i b hb hout)

/-- Witness for C3: one-entry palette, index byte 5. -/
theorem C3_witness :
    ∃ img, decode_png ⟨1, 1, .Indexed, some [1, 2, 3]⟩ [5] = .ok img ∧
      ∀ i b, i < 1 * 1 % 2 ^ 32 → ([5] : List Nat)[i]? = some b →
        ¬ b * 3 + 2 < ([1, 2, 3] : List Nat).length →
        pixelAt img.bytes i = [0, 0, 0, 255] :=
  C3_indexed_out_of_bounds ⟨1, 1, .Indexed, some [1, 2, 3]⟩ [5] [1, 2, 3]
    rfl rfl (by decide)

/-- C4 counterexample: the decode error message for a palette-less
indexed PNG is capitalized, so it is not the spec's quoted lowercase
"missing palette for indexed image". -/
theorem C4_counterexample :
    decode_png ⟨1, 1, .Indexed, none⟩ [0] ≠
      .err (.Decode .Png "missing palette for indexed image") := by
  decide

/-- C4 amended: an `Indexed` PNG with no palette fails with the
PNG-tagged `DecodeError` "Missing palette for indexed image" (capital M)
and returns no `Image`. -/
theorem C4_missing_palette (info : PngInfo) (raw : List Nat)
    (hct : info.colorType = .Indexed) (hpal : info.palette = none) :
    decode_png info raw = .err (.Decode .Png "Missing palette for indexed image") := by
  simp only [decode_png, hct, hpal]

/-- Witness for C4 at a concrete palette-less indexed input. -/
theorem C4_witness :
    decode_png ⟨1, 1, .Indexed, none⟩ [0] =
      .err (.Decode .Png "Missing palette for indexed image") :=
  C4_missing_palette ⟨1, 1, .Indexed, none⟩ [0] rfl rfl

/-- C5: the `Rgb` branch succeeds on a raw buffer of at least
`width*height*3` bytes, emits each pixel's 3 source bytes followed by
255, and produces exactly `width*height*4` output bytes. -/
theorem C5_rgb_normalization (info : PngInfo) (raw : List Nat)
    (hct : info.colorType = .Rgb)
    (hwh : info.width * info.height < 2 ^ 32)
    (hlen : info.width * info.height * 3 ≤ raw.length) :
    ∃ img, decode_png info raw = .ok img ∧
      img.bytes.length = info.width * info.height * 4 ∧
      ∀ i r g b, i < info.width * info.height →
        raw[i * 3]? = some r → raw[i * 3 + 1]? = some g →
        raw[i * 3 + 2]? = some b →
        pixelAt img.bytes i = [r, g, b, 255] := by
  have hn : info.width * info.height % 2 ^ 32 = info.width * info.height :=
    Nat.mod_eq_of_lt hwh
  have hsome : (buildPixels (rgbPixel raw) (info.width * info.height % 2 ^ 32)).isSome := by
    rw [hn]
    exact buildPixels_isSome _ _ fun i hi => rgbPixel_isSome raw i (by omega)
  obtain ⟨bts, hbp⟩ := Option.isSome_iff_exists.mp hsome
  refine ⟨⟨toI32 info.width, toI32 info.height, bts⟩, ?_, ?_, ?_⟩
  · simp only [decode_png, hct, hbp]
  · have hl := buildPixels_length _ (rgbPixel_length raw) _ bts hbp
    rw [hn] at hl
    show bts.length = _
    rw [hl]
    ring
  · intro i r g b hi hr hg hb
    exact buildPixels_pixelAt _ (rgbPixel_length raw) _ _ hbp i (by rw [hn]; exact hi) _
      (rgbPixel_some raw i r g b hr hg hb)

/-- Witness for C5: 1×1 source pixel `[10,20,30]`. -/
theorem C5_witness :
    ∃ img, decode_png ⟨1, 1, .Rgb, none⟩ [10, 20, 30] = .ok img ∧
      img.bytes.length = 1 * 1 * 4 ∧
      ∀ i r g b, i < 1 * 1 →
        ([10, 20, 30] : List Nat)[i * 3]? = some r →
        ([10, 20, 30] : List Nat)[i * 3 + 1]? = some g →
        ([10, 20, 30] : List Nat)[i * 3 + 2]? = some b →
        pixelAt img.bytes i = [r, g, b, 255] :=
  C5_rgb_normalization ⟨1, 1, .Rgb, none⟩ [10, 20, 30] rfl (by decide) (by decide)

/-- C6: the `Grayscale` branch replicates the single intensity byte into
R, G, B with alpha 255; the `GrayscaleAlpha` branch replicates the first
source byte into R, G, B and copies the second verbatim as alpha. -/
theorem C6_gray_normalization :
    (∀ (info : PngInfo) (raw : List Nat),
      info.colorType = .Grayscale →
      info.width * info.height < 2 ^ 32 →
      info.width * info.height ≤ raw.length →
      ∃ img, decode_png info raw = .ok img ∧
        ∀ i g, i < info.width * info.height → raw[i]? = some g →
          pixelAt img.bytes i = [g, g, g, 255]) ∧
    (∀ (info : PngInfo) (raw : List Nat),
      info.colorType = .GrayscaleAlpha →
      info.width * info.height < 2 ^ 32 →
      info.width * info.height * 2 ≤ raw.length →
      ∃ img, decode_png info raw = .ok img ∧
        ∀ i g a, i < info.width * info.height →
          raw[i * 2]? = some g → raw[i * 2 + 1]? = some a →
          pixelAt img.bytes i = [g, g, g, a]) := by
  constructor
  · intro info raw hct hwh hlen
    have hn : info.width * info.height % 2 ^ 32 = info.width * info.height :=
      Nat.mod_eq_of_lt hwh
    have hsome : (buildPixels (grayPixel raw) (info.width * info.height % 2 ^ 32)).isSome := by
      rw [hn]
      exact buildPixels_isSome _ _ fun i hi => grayPixel_isSome raw i (by omega)
    obtain ⟨bts, hbp⟩ := Option.isSome_iff_exists.mp hsome
    refine ⟨⟨toI32 info.width, toI32 info.height, bts⟩, ?_, ?_⟩
    · simp only [decode_png, hct, hbp]
    · intro i g hi hg
      exact buildPixels_pixelAt _ (grayPixel_length raw) _ _ hbp i (by rw [hn]; exact hi) _
        (grayPixel_some raw i g hg)
  · intro info raw hct hwh hlen
    have hn : info.width * info.height % 2 ^ 32 = info.width * info.height :=
      Nat.mod_eq_of_lt hwh
    have hsome :
        (buildPixels (grayAlphaPixel raw) (info.width * info.height % 2 ^ 32)).isSome := by
      rw [hn]
      exact buildPixels_isSome _ _ fun i hi => grayAlphaPixel_isSome raw i (by omega)
    obtain ⟨bts, hbp⟩ := Option.isSome_iff_exists.mp hsome
    refine ⟨⟨toI32 info.width, toI32 info.height, bts⟩, ?_, ?_⟩
    · simp only [decode_png, hct, hbp]
    · intro i g a hi hg ha
      exact buildPixels_pixelAt _ (grayAlphaPixel_length raw) _ _ hbp i
        (by rw [hn]; exact hi) _ (grayAlphaPixel_some raw i g a hg ha)

/-- Witness for C6: 1×1 grayscale pixel `[200]` and 1×1 gray-alpha pixel
`[100,50]`. -/
theorem C6_witness :
    (∃ img, decode_png ⟨1, 1, .Grayscale, none⟩ [200] = .ok img ∧
      ∀ i g, i < 1 * 1 → ([200] : List Nat)[i]? = some g →
        pixelAt img.bytes i = [g, g, g, 255]) ∧
    (∃ img, decode_png ⟨1, 1, .GrayscaleAlpha, none⟩ [100, 50] = .ok img ∧
      ∀ i g a, i < 1 * 1 → ([100, 50] : List Nat)[i * 2]? = some g →
        ([100, 50] : List Nat)[i * 2 + 1]? = some a →
        pixelAt img.bytes i = [g, g, g, a]) :=
  ⟨C6_gray_normalization.1 ⟨1, 1, .Grayscale, none⟩ [200] rfl (by decide) (by decide),
    C6_gray_normalization.2 ⟨1, 1, .GrayscaleAlpha, none⟩ [100, 50] rfl (by decide)
      (by decide)⟩

/-- C7 counterexample: the GIF no-frame error message is capitalized, so
it is not the spec's quoted lowercase "error getting frame info". -/
theorem C7_counterexample :
    decode_gif ⟨false, 0, [], 0, 0⟩ ≠
      .err (.Decode .Gif "error getting frame info") := by
  decide

/-- C7 amended: a GIF stream that yields no frame info fails with the
GIF-tagged `DecodeError` "Error getting frame info" (capital E); the
result is exactly that error, so no `Image` is returned. -/
theorem C7_no_frame_error (s : GifStream) (h : s.hasFrame = false) :
    decode_gif s = .err (.Decode .Gif "Error getting frame info") := by
  simp [decode_gif, h]

/-- Witness for C7 at a concrete frameless stream. -/
theorem C7_witness :
    decode_gif ⟨false, 0, [], 0, 0⟩ =
      .err (.Decode .Gif "Error getting frame info") :=
  C7_no_frame_error ⟨false, 0, [], 0, 0⟩ rfl

/-- C8: PNG encode writes the RGBA buffer verbatim and the RGBA decode
path is a pass-through, so the round trip returns an `Image` with
byte-identical RGBA content. -/
theorem C8_png_roundtrip (img : Image) :
    ∃ img2, png_roundtrip img = .ok img2 ∧ img2.bytes = img.bytes :=
  ⟨⟨toI32 (toU32 img.width), toI32 (toU32 img.height), img.bytes⟩, rfl, rfl⟩

/-- C9 counterexample: a decoder-reported width of `2^31` passes through
`as i32` and is stored as the negative value `-2^31`, so decoded
dimensions are not always non-negative. -/
theorem C9_counterexample :
    decode_png ⟨2 ^ 31, 1, .Rgba, none⟩ [] = .ok ⟨-(2 ^ 31), 1, []⟩ ∧
      (-(2 ^ 31) : Int) < 0 := by
  constructor
  · decide
  · decide

/-- C9 amended: decoded dimensions are non-negative provided the
reported PNG dimensions are below `2^31` (GIF dimensions are `u16`, so
they need no side condition); a report of `2^31` or more wraps to a
negative `i32`. -/
theorem C9_nonneg_dims :
    (∀ (info : PngInfo) (raw : List Nat) (img : Image),
      info.width < 2 ^ 31 → info.height < 2 ^ 31 →
      decode_png info raw = .ok img → 0 ≤ img.width ∧ 0 ≤ img.height) ∧
    (∀ (s : GifStream) (img : Image),
      decode_gif s = .ok img → 0 ≤ img.width ∧ 0 ≤ img.height) := by
  constructor
  · intro info raw img hw hh hdec
    obtain ⟨h1, h2, -⟩ := decode_png_ok info raw img hdec
    rw [h1, h2, toI32_of_lt hw, toI32_of_lt hh]
    exact ⟨Int.natCast_nonneg _, Int.natCast_nonneg _⟩
  · intro s img hdec
    obtain ⟨h1, h2, -⟩ := decode_gif_ok s img hdec
    rw [h1, h2]
    exact ⟨Int.natCast_nonneg _, Int.natCast_nonneg _⟩

/-- Witness for C9 at a concrete 1×1 RGBA decode. -/
theorem C9_witness :
    0 ≤ (⟨1, 1, [1, 2, 3, 4]⟩ : Image).width ∧
      0 ≤ (⟨1, 1, [1, 2, 3, 4]⟩ : Image).height :=
  C9_nonneg_dims.1 ⟨1, 1, .Rgba, none⟩ [1, 2, 3, 4] ⟨1, 1, [1, 2, 3, 4]⟩
    (by norm_num) (by norm_num) (by decide)

/-- C10: `encode_gif` builds its frame with the dimensions reduced
modulo `2^16`, so the frame dimensions equal `width mod 65536` and
`height mod 65536`, and any dimension above 65535 is written back
differently from the `Image`'s own value. -/
theorem C10_gif_dimension_truncation (img : Image) :
    ((encode_gif_frame img).width : Int) = img.width % 65536 ∧
    ((encode_gif_frame img).height : Int) = img.height % 65536 ∧
    (65535 < img.width → ((encode_gif_frame img).width : Int) ≠ img.width) ∧
    (65535 < img.height → ((encode_gif_frame img).height : Int) ≠ img.height) := by
  unfold encode_gif_frame toU16
  dsimp only
  omega

/-- Witness for C10: width 70000 is written as 4464 = 70000 mod 65536. -/
theorem C10_witness :
    ((encode_gif_frame ⟨70000, 1, []⟩).width : Int) = (70000 : Int) % 65536 ∧
      ((encode_gif_frame ⟨70000, 1, []⟩).width : Int) ≠ 70000 :=
  ⟨(C10_gif_dimension_truncation ⟨70000, 1, []⟩).1,
    (C10_gif_dimension_truncation ⟨70000, 1, []⟩).2.2.1 (by norm_num)⟩

end Raster
